import Mathlib

/-!
Verification development for the session/state core of the TrayMe desktop
window-tray utility: the durable Workspace Store (`managers/storage_manager.rs`,
an SQLite-backed table of workspace snapshots), the in-memory Window Tray
Registry (`managers/window_manager.rs`, a `HashMap` of trayed windows), and the
command boundary (`commands/storage.rs`, `commands/window.rs`) that acquires a
read or write lock on the shared state (`state.rs`) and delegates to those two
components.

The embedding is shallow: the `workspaces` SQLite table becomes a list of rows
with `id` as primary key (at most one row per id, which the upsert maintains);
the `HashMap` of the registry becomes an association list with HashMap `insert`
and `remove` semantics; the command layer becomes pure functions that also
report the list of lock acquisitions they perform, transcribed from the
`.read().await` / `.write().await` calls in the source.  Backend I/O failures
(an unreachable SQLite file, a poisoned pool) are outside the model: the
`Result` layer that carries only those is dropped, and the `Option` / `Except`
structure of each operation is kept exactly.
-/

namespace TrayMe

/-- Row of the `workspaces` table, also the `WorkspaceData` struct returned by
the storage manager (storage_manager.rs, lines 179-197; the two Rust structs
`WorkspaceRow` and `WorkspaceData` have identical fields and are merged here).
Timestamps are `chrono` epoch seconds, an `i64` in the source, modelled as
`Int`. -/
structure WorkspaceData where
  id : String
  name : String
  description : Option String
  windows_data : String
  created_at : Int
  updated_at : Int
deriving Repr, DecidableEq

/-- State of the `workspaces` table: its rows.  The `id TEXT PRIMARY KEY`
constraint means at most one row per id; `save_workspace` below maintains
that invariant by updating the first (hence only) matching row in place. -/
abbrev Store := List WorkspaceData

/-- StorageManager::save_workspace (storage_manager.rs, lines 115-139).
`INSERT INTO workspaces ... VALUES (?, ?, ?, ?, now, now) ON CONFLICT(id) DO
UPDATE SET name = excluded.name, description = excluded.description,
windows_data = excluded.windows_data, updated_at = excluded.updated_at`:
if a row with this primary key exists it is updated in place, replacing
`name`, `description`, `windows_data` and `updated_at` but not `created_at`;
otherwise a fresh row is inserted with `created_at = updated_at = now`.
The single `chrono::Utc::now().timestamp()` read at the top of the function
is passed in as the argument `now`. -/
def save_workspace : Store → String → String → Option String → String → Int → Store
  | [], id, name, d, wd, now =>
    [{ id := id, name := name, description := d, windows_data := wd,
       created_at := now, updated_at := now }]
  | r :: rs, id, name, d, wd, now =>
    if r.id == id then
      { r with name := name, description := d, windows_data := wd, updated_at := now } :: rs
    else
      r :: save_workspace rs id name d wd now

/-- StorageManager::load_workspace (storage_manager.rs, lines 142-158).
`SELECT id, name, description, windows_data, created_at, updated_at FROM
workspaces WHERE id = ?` with `fetch_optional`: the first matching row, or
`None` when no row matches.  A miss is the `Ok(None)` value, not an error. -/
def load_workspace : Store → String → Option WorkspaceData
  | [], _ => none
  | r :: rs, id => if r.id == id then some r else load_workspace rs id

/-- Bool comparison used to transcribe `ORDER BY updated_at DESC`. -/
def moreRecent (a b : WorkspaceData) : Bool := b.updated_at ≤ a.updated_at

/-- StorageManager::list_workspaces (storage_manager.rs, lines 161-176).
`SELECT ... FROM workspaces ORDER BY updated_at DESC` with `fetch_all`: all
rows, sorted by `updated_at` descending. -/
def list_workspaces (s : Store) : List WorkspaceData :=
  s.mergeSort moreRecent

/-- Master lemma about the upsert: loading the id just saved always finds a
row carrying the saved `name`/`description`/`windows_data`, with
`updated_at = now`, and `created_at` either preserved from the pre-existing
row or, when the id was absent, equal to `now`. -/
theorem load_save_workspace (s : Store) (id n : String) (d : Option String)
    (wd : String) (now : Int) :
    load_workspace (save_workspace s id n d wd now) id =
      some { id := id, name := n, description := d, windows_data := wd,
             created_at := ((load_workspace s id).map WorkspaceData.created_at).getD now,
             updated_at := now } := by
  induction s with
  | nil => simp [save_workspace, load_workspace]
  | cons r rs ih =>
    by_cases h : r.id = id
    · simp [save_workspace, load_workspace, h]
    · simp [save_workspace, load_workspace, h, ih]

/-- Saving under one id does not touch the row, or absence of a row, of any
other id. -/
theorem load_save_workspace_other (s : Store) (a id n : String) (d : Option String)
    (wd : String) (now : Int) (h : a ≠ id) :
    load_workspace (save_workspace s a n d wd now) id = load_workspace s id := by
  induction s with
  | nil => simp [save_workspace, load_workspace, h]
  | cons r rs ih =>
    by_cases hr : r.id = a
    · have hi : ¬r.id = id := by rw [hr]; exact h
      simp [save_workspace, load_workspace, hr, hi, h]
    · by_cases hi : r.id = id
      · simp [save_workspace, load_workspace, hr, hi, Ne.symm h]
      · simp [save_workspace, load_workspace, hr, hi, ih]

/-- One call to the storage manager's save, with its inputs and the value the
clock read returned during it; a sequence of these, run from the empty table,
generates the reachable states of the Workspace Store. -/
structure SaveOp where
  id : String
  name : String
  description : Option String
  windows_data : String
  now : Int

/-- Run a sequence of `save_workspace` calls starting from the empty table. -/
def runSaves (ops : List SaveOp) : Store :=
  ops.foldl (fun s o => save_workspace s o.id o.name o.description o.windows_data o.now) []

/-- C1: for every id, name, optional description and windows_data string,
`save_workspace` followed by `load_workspace` on the same id returns a present
workspace whose `name`, `description` and `windows_data` equal the values just
saved, and whose `updated_at` is at least the timestamp read at the start of
the save call. -/
theorem C1_save_then_load (s : Store) (id n : String) (d : Option String)
    (wd : String) (now : Int) :
    ∃ w, load_workspace (save_workspace s id n d wd now) id = some w ∧
      w.name = n ∧ w.description = d ∧ w.windows_data = wd ∧ now ≤ w.updated_at :=
  ⟨_, load_save_workspace s id n d wd now, rfl, rfl, rfl, le_refl now⟩

/-- C2: a second save on an id already present fully replaces `name`,
`description` and `windows_data`, preserves the existing row's `created_at`,
and (the clock being monotone across the two calls) sets `updated_at` to a
value at least the previous `updated_at`. -/
theorem C2_upsert_preserves_created_at (s : Store) (id n : String)
    (d : Option String) (wd : String) (t : Int) (r : WorkspaceData)
    (hp : load_workspace s id = some r) (hmono : r.updated_at ≤ t) :
    ∃ w, load_workspace (save_workspace s id n d wd t) id = some w ∧
      w.name = n ∧ w.description = d ∧ w.windows_data = wd ∧
      w.created_at = r.created_at ∧ r.updated_at ≤ w.updated_at := by
  have h := load_save_workspace s id n d wd t
  rw [hp] at h
  exact ⟨_, h, rfl, rfl, rfl, rfl, hmono⟩

/-- Witness for C2 at a concrete store: save id "w1" at time 5, save it again
at time 7 with new values; the reloaded row keeps `created_at = 5`, carries the
new fields, and its `updated_at` is at least the old one. -/
theorem C2_upsert_preserves_created_at_witness :
    ∃ w, load_workspace
        (save_workspace (save_workspace [] "w1" "A" none "x" 5) "w1" "B" (some "d") "y" 7)
        "w1" = some w ∧
      w.name = "B" ∧ w.description = some "d" ∧ w.windows_data = "y" ∧
      w.created_at = 5 ∧ (5 : Int) ≤ w.updated_at := by
  have h := C2_upsert_preserves_created_at (save_workspace [] "w1" "A" none "x" 5)
    "w1" "B" (some "d") "y" 7
    { id := "w1", name := "A", description := none, windows_data := "x",
      created_at := 5, updated_at := 5 }
    (by decide) (by decide)
  obtain ⟨w, h1, h2, h3, h4, h5, h6⟩ := h
  exact ⟨w, h1, h2, h3, h4, h5, h6⟩

/-- C5: for every id on which save was never called, across every store state
reachable by a sequence of saves from the empty table, `load_workspace`
returns the explicit absent value `none` (a success, not an error). -/
theorem C5_load_unsaved_none (ops : List SaveOp) (id : String)
    (h : ∀ o ∈ ops, o.id ≠ id) :
    load_workspace (runSaves ops) id = none := by
  have aux : ∀ (l : List SaveOp) (s : Store), (∀ o ∈ l, o.id ≠ id) →
      load_workspace s id = none →
      load_workspace
        (l.foldl (fun s o => save_workspace s o.id o.name o.description o.windows_data o.now) s)
        id = none := by
    intro l
    induction l with
    | nil => intro s _ hs; simpa using hs
    | cons o os ih =>
      intro s hl hs
      simp only [List.foldl_cons]
      refine ih _ (fun o' ho' => hl o' (List.mem_cons_of_mem _ ho')) ?_
      rw [load_save_workspace_other s o.id id o.name o.description o.windows_data o.now
        (hl o (List.mem_cons_self _ _))]
      exact hs
  exact aux ops [] h rfl

/-- Witness for C5: after saving only id "a", loading id "b" returns `none`. -/
theorem C5_load_unsaved_none_witness :
    load_workspace (runSaves [⟨"a", "A", none, "x", 1⟩]) "b" = none := by
  refine C5_load_unsaved_none _ "b" ?_
  intro o ho
  simp only [List.mem_singleton] at ho
  subst ho
  decide

/-- C10: the first save under a fresh id writes `created_at` and `updated_at`
from the single clock read of that call, so a workspace loaded after exactly
one save has `created_at = updated_at`. -/
theorem C10_first_save_timestamps (s : Store) (id n : String) (d : Option String)
    (wd : String) (now : Int) (h : load_workspace s id = none) :
    ∃ w, load_workspace (save_workspace s id n d wd now) id = some w ∧
      w.created_at = now ∧ w.updated_at = now ∧ w.created_at = w.updated_at := by
  have hl := load_save_workspace s id n d wd now
  rw [h] at hl
  exact ⟨_, hl, rfl, rfl, rfl⟩

/-- Witness for C10: one save of "w1" on the empty table at time 9 yields a
row with `created_at = updated_at = 9`. -/
theorem C10_first_save_timestamps_witness :
    ∃ w, load_workspace (save_workspace [] "w1" "Dev" none "[]" 9) "w1" = some w ∧
      w.created_at = 9 ∧ w.updated_at = 9 ∧ w.created_at = w.updated_at :=
  C10_first_save_timestamps [] "w1" "Dev" none "[]" 9 rfl

/-- C6: `list_workspaces` returns all stored rows (a permutation of the
table), ordered by `updated_at` descending, and on the empty store it returns
the empty sequence, not an error. -/
theorem C6_list_sorted_desc (s : Store) :
    (list_workspaces s).Perm s ∧
    List.Pairwise (fun a b => b.updated_at ≤ a.updated_at) (list_workspaces s) ∧
    list_workspaces [] = [] := by
  refine ⟨List.mergeSort_perm s moreRecent, ?_, by simp [list_workspaces]⟩
  have h := @List.sorted_mergeSort WorkspaceData moreRecent
    (fun a b c hab hbc => by
      simp only [moreRecent, decide_eq_true_eq] at *
      exact le_trans hbc hab)
    (fun a b => by
      simp only [moreRecent, Bool.or_eq_true, decide_eq_true_eq]
      exact le_total b.updated_at a.updated_at)
    s
  refine h.imp ?_
  intro a b hab
  simpa [moreRecent] using hab

/-- TrayedWindow (window_manager.rs, lines 50-60): one in-memory record of a
window minimized to the tray.  `process_id` is a Rust `Option<u32>`,
`preview_data` an `Option<Vec<u8>>` (opaque bytes), `metadata` a
`HashMap<String, String>` of caller annotations, here an association list. -/
structure TrayedWindow where
  id : String
  title : String
  app_name : String
  process_id : Option Nat
  workspace : Option String
  preview_data : Option (List Nat)
  created_at : Int
  metadata : List (String × String)
deriving Repr, DecidableEq

/-- WindowManager (window_manager.rs, lines 6-8): the registry's
`HashMap<String, TrayedWindow>`, modelled as an association list in which a
key occurs at most once (every insertion below first drops any entry with the
same key, which is HashMap `insert` semantics; the spec declares the map
unordered, so the list order carries no meaning). -/
structure WindowManager where
  trayed_windows : List (String × TrayedWindow)

/-- WindowManager::new (window_manager.rs, lines 11-15): the empty registry. -/
def WindowManager.new : WindowManager := ⟨[]⟩

/-- WindowManager::add_to_tray (window_manager.rs, lines 18-22):
`self.trayed_windows.insert(window.id.clone(), window)` keyed by the
window's own id, returning that id; an existing entry under the same key is
replaced. -/
def WindowManager.add_to_tray (m : WindowManager) (w : TrayedWindow) :
    String × WindowManager :=
  (w.id, ⟨(w.id, w) :: m.trayed_windows.filter (fun e => e.1 != w.id)⟩)

/-- WindowManager::get_trayed_window (window_manager.rs, lines 35-37):
`self.trayed_windows.get(id)`, a read-only lookup. -/
def WindowManager.get_trayed_window (m : WindowManager) (id : String) :
    Option TrayedWindow :=
  (m.trayed_windows.find? (fun e => e.1 == id)).map Prod.snd

/-- WindowManager::remove_from_tray (window_manager.rs, lines 25-27):
`self.trayed_windows.remove(id)` — returns the entry for `id` when present
(transferring it to the caller) and deletes it from the map; `None` and no
change when absent. -/
def WindowManager.remove_from_tray (m : WindowManager) (id : String) :
    Option TrayedWindow × WindowManager :=
  (m.get_trayed_window id, ⟨m.trayed_windows.filter (fun e => e.1 != id)⟩)

/-- WindowManager::list_trayed_windows (window_manager.rs, lines 30-32):
`self.trayed_windows.values().collect()`. -/
def WindowManager.list_trayed_windows (m : WindowManager) : List TrayedWindow :=
  m.trayed_windows.map Prod.snd

/-- WindowManager::update_window (window_manager.rs, lines 40-47): applies the
caller-supplied mutation to the entry for `id` if present and reports whether
it existed. -/
def WindowManager.update_window (m : WindowManager) (id : String)
    (f : TrayedWindow → TrayedWindow) : Bool × WindowManager :=
  if m.trayed_windows.any (fun e => e.1 == id) then
    (true, ⟨m.trayed_windows.map (fun e => if e.1 == id then (e.1, f e.2) else e)⟩)
  else
    (false, m)

/-- Looking a key up after every entry under it was filtered out finds
nothing. -/
theorem find_filter_ne_none (l : List (String × TrayedWindow)) (id : String) :
    (l.filter (fun e => e.1 != id)).find? (fun e => e.1 == id) = none := by
  induction l with
  | nil => rfl
  | cons e es ih => by_cases h : e.1 = id <;> simp [List.filter_cons, h, ih]

/-- A lookup over entries none of which carries the key finds nothing. -/
theorem get_eq_none_of_absent (m : WindowManager) (id : String)
    (h : ∀ p ∈ m.trayed_windows, p.1 ≠ id) :
    m.get_trayed_window id = none := by
  unfold WindowManager.get_trayed_window
  rw [List.find?_eq_none.mpr]
  · rfl
  · intro p hp
    simp [h p hp]

/-- Filtering a key out of a list that never carries it changes nothing. -/
theorem filter_ne_eq_self_of_absent (l : List (String × TrayedWindow)) (id : String)
    (h : ∀ p ∈ l, p.1 ≠ id) :
    l.filter (fun e => e.1 != id) = l := by
  induction l with
  | nil => rfl
  | cons e es ih =>
    have he : e.1 ≠ id := h e (List.mem_cons_self _ _)
    simp only [List.filter_cons]
    rw [if_pos (by simpa using he), ih (fun p hp => h p (List.mem_cons_of_mem _ hp))]

/-- C7: for every window inserted via `add_to_tray`, an immediate lookup of
its id returns exactly the inserted entry; `remove_from_tray` on that id
returns the same entry; and a lookup after the removal returns the absent
value. -/
theorem C7_add_get_remove (m : WindowManager) (w : TrayedWindow) :
    (m.add_to_tray w).1 = w.id ∧
    (m.add_to_tray w).2.get_trayed_window w.id = some w ∧
    ((m.add_to_tray w).2.remove_from_tray w.id).1 = some w ∧
    ((m.add_to_tray w).2.remove_from_tray w.id).2.get_trayed_window w.id = none := by
  refine ⟨rfl, ?_, ?_, ?_⟩
  · simp [WindowManager.add_to_tray, WindowManager.get_trayed_window]
  · simp [WindowManager.add_to_tray, WindowManager.remove_from_tray,
      WindowManager.get_trayed_window]
  · simp only [WindowManager.add_to_tray, WindowManager.remove_from_tray,
      WindowManager.get_trayed_window]
    rw [find_filter_ne_none]
    rfl

/-- One registry operation at the command boundary: an insertion of a fully
constructed window, a removal by id, or an in-place mutation by id (the
mutation is the caller-supplied closure of `update_window`; plain `get` and
`list` calls do not change the state and need no constructor here). -/
inductive RegOp where
  | add (w : TrayedWindow)
  | remove (id : String)
  | update (id : String) (f : TrayedWindow → TrayedWindow)

/-- State transition of one registry operation. -/
def regStep (m : WindowManager) : RegOp → WindowManager
  | .add w => (m.add_to_tray w).2
  | .remove id => (m.remove_from_tray id).2
  | .update id f => (m.update_window id f).2

/-- Registry state reached by a sequence of operations from the empty
registry. -/
def runRegOps (ops : List RegOp) : WindowManager :=
  ops.foldl regStep WindowManager.new

/-- Keys never mentioned by any `add` of a run stay absent from the registry,
whatever removals and updates are interleaved. -/
theorem key_absent_of_never_added (l : List RegOp) :
    ∀ (m : WindowManager) (id : String),
      (∀ w, RegOp.add w ∈ l → w.id ≠ id) →
      (∀ p ∈ m.trayed_windows, p.1 ≠ id) →
      ∀ p ∈ (l.foldl regStep m).trayed_windows, p.1 ≠ id := by
  induction l with
  | nil => intro m id _ hm; simpa using hm
  | cons op ops ih =>
    intro m id hl hm
    simp only [List.foldl_cons]
    refine ih _ id (fun w hw => hl w (List.mem_cons_of_mem _ hw)) ?_
    cases op with
    | add w =>
      intro p hp
      simp only [regStep, WindowManager.add_to_tray, List.mem_cons] at hp
      rcases hp with hp | hp
      · rw [hp]
        exact hl w (List.mem_cons_self _ _)
      · exact hm p (List.mem_filter.mp hp).1
    | remove i =>
      intro p hp
      simp only [regStep, WindowManager.remove_from_tray] at hp
      exact hm p (List.mem_filter.mp hp).1
    | update i f =>
      intro p hp
      simp only [regStep, WindowManager.update_window] at hp
      by_cases hc : m.trayed_windows.any (fun e => e.1 == i)
      · simp only [hc, if_true, List.mem_map] at hp
        obtain ⟨e, he, hep⟩ := hp
        have hpe : p.1 = e.1 := by
          by_cases hei : e.1 = i
          · rw [if_pos (by simpa using hei)] at hep
            rw [← hep]
          · rw [if_neg (by simpa using hei)] at hep
            rw [← hep]
        rw [hpe]
        exact hm e he
      · simp only [hc, if_false] at hp
        exact hm p hp

/-- C8: removing an id that no operation of the run ever added returns the
absent value, not an error, and leaves the registry exactly as it was. -/
theorem C8_remove_absent (ops : List RegOp) (id : String)
    (h : ∀ w, RegOp.add w ∈ ops → w.id ≠ id) :
    (runRegOps ops).remove_from_tray id = (none, runRegOps ops) := by
  have hk : ∀ p ∈ (runRegOps ops).trayed_windows, p.1 ≠ id :=
    key_absent_of_never_added ops WindowManager.new id h (by intro p hp; simp [WindowManager.new] at hp)
  unfold WindowManager.remove_from_tray
  rw [get_eq_none_of_absent _ _ hk, filter_ne_eq_self_of_absent _ _ hk]

/-- Sample window used in concrete registry runs. -/
def sampleWindow : TrayedWindow :=
  { id := "a", title := "Terminal", app_name := "term-app", process_id := none,
    workspace := none, preview_data := none, created_at := 0, metadata := [] }

/-- Witness for C8: after a run that only adds the window with id "a",
removing id "b" returns `none` and the registry is unchanged. -/
theorem C8_remove_absent_witness :
    (runRegOps [RegOp.add sampleWindow]).remove_from_tray "b" =
      (none, runRegOps [RegOp.add sampleWindow]) := by
  refine C8_remove_absent [RegOp.add sampleWindow] "b" ?_
  intro w hw
  simp only [List.mem_singleton, RegOp.add.injEq] at hw
  subst hw
  decide

/-- A registry operation preserves the key-equals-id invariant when, in the
case of `update_window`, its mutation leaves the `id` field alone (`add` and
`remove` always preserve it). -/
def idPreserving : RegOp → Prop
  | .update _ f => ∀ w, (f w).id = w.id
  | _ => True

/-- C9 as claimed fails: `update_window` hands the stored entry to an
arbitrary caller-supplied mutation, which may rewrite the `id` field while
the map key stays put.  Concretely, adding the sample window (key "a") and
then updating it with a mutation that sets `id := "b"` reaches a state whose
single entry has key "a" but id field "b". -/
theorem C9_counterexample :
    (runRegOps [RegOp.add sampleWindow,
        RegOp.update "a" (fun w => { w with id := "b" })]).trayed_windows =
      [("a", { sampleWindow with id := "b" })] ∧
    ("a" : String) ≠ "b" := by
  constructor
  · rfl
  · decide

/-- C9 amended: in every registry state reachable by a sequence of add,
remove and update operations whose update mutations preserve the `id` field,
every key of the map equals the `id` field of the entry stored under it. -/
theorem C9_registry_keys (ops : List RegOp) (h : ∀ op ∈ ops, idPreserving op) :
    ∀ p ∈ (runRegOps ops).trayed_windows, p.1 = p.2.id := by
  have aux : ∀ (l : List RegOp) (m : WindowManager),
      (∀ op ∈ l, idPreserving op) →
      (∀ p ∈ m.trayed_windows, p.1 = p.2.id) →
      ∀ p ∈ (l.foldl regStep m).trayed_windows, p.1 = p.2.id := by
    intro l
    induction l with
    | nil => intro m _ hm; simpa using hm
    | cons op ops ih =>
      intro m hl hm
      simp only [List.foldl_cons]
      refine ih _ (fun o ho => hl o (List.mem_cons_of_mem _ ho)) ?_
      cases op with
      | add w =>
        intro p hp
        simp only [regStep, WindowManager.add_to_tray, List.mem_cons] at hp
        rcases hp with hp | hp
        · rw [hp]
        · exact hm p (List.mem_filter.mp hp).1
      | remove i =>
        intro p hp
        simp only [regStep, WindowManager.remove_from_tray] at hp
        exact hm p (List.mem_filter.mp hp).1
      | update i f =>
        have hf : ∀ w, (f w).id = w.id := hl (RegOp.update i f) (List.mem_cons_self _ _)
        intro p hp
        simp only [regStep, WindowManager.update_window] at hp
        by_cases hc : m.trayed_windows.any (fun e => e.1 == i)
        · simp only [hc, if_true, List.mem_map] at hp
          obtain ⟨e, he, hep⟩ := hp
          by_cases hei : e.1 = i
          · rw [if_pos (by simpa using hei)] at hep
            rw [← hep]
            show e.1 = (f e.2).id
            rw [hf e.2]
            exact hm e he
          · rw [if_neg (by simpa using hei)] at hep
            rw [← hep]
            exact hm e he
        · simp only [hc, if_false] at hp
          exact hm p hp
  exact aux ops WindowManager.new h (by intro p hp; simp [WindowManager.new] at hp)

/-- Witness for the amended C9: a run that adds the sample window and then
updates its title (an id-preserving mutation) satisfies the invariant at its
sole entry. -/
theorem C9_registry_keys_witness :
    ("a", ({ sampleWindow with title := "T" } : TrayedWindow)).1 =
      ({ sampleWindow with title := "T" } : TrayedWindow).id :=
  C9_registry_keys [RegOp.add sampleWindow,
      RegOp.update "a" (fun w => { w with title := "T" })]
    (by
      intro op hop
      simp only [List.mem_cons, List.mem_singleton] at hop
      rcases hop with hop | hop | hop
      · rw [hop]; trivial
      · rw [hop]; intro w; rfl
      · cases hop)
    ("a", { sampleWindow with title := "T" })
    (by rw [show runRegOps [RegOp.add sampleWindow,
        RegOp.update "a" (fun w => { w with title := "T" })] =
        ⟨[("a", { sampleWindow with title := "T" })]⟩ from rfl]
        simp)

/-- AppState (state.rs, lines 12-16): the session state container, holding
the one storage manager and the one window manager behind two independent
`tokio::sync::RwLock`s (the `AppHandle` field resolves the storage directory
and plays no part in the claims). -/
structure AppState where
  storage_manager : Store
  window_manager : WindowManager

/-- Which of the two independently locked components a lock acquisition is
taken on (state.rs: `storage_manager` and `window_manager` each sit behind
their own `RwLock`). -/
inductive Component where
  | storage
  | window
deriving DecidableEq, Repr

/-- Whether a lock acquisition is shared (`.read().await`) or exclusive
(`.write().await`). -/
inductive LockKind where
  | read
  | write
deriving DecidableEq, Repr

/-- One lock acquisition performed by a command, as written in the source. -/
structure LockAcq where
  component : Component
  kind : LockKind
deriving DecidableEq, Repr

/-- WorkspaceInfo (commands/storage.rs, lines 5-11): the caller-facing summary
returned by the load-workspace command, with `windows_data` already parsed
into a list of window identifier strings. -/
structure WorkspaceInfo where
  id : String
  name : String
  description : Option String
  windows : List String
deriving Repr, DecidableEq

/-- WindowInfo (commands/window.rs, lines 6-12): the caller-facing window
summary. -/
structure WindowInfo where
  id : String
  title : String
  app_name : String
  workspace : Option String
deriving Repr, DecidableEq

/-- save_workspace command (commands/storage.rs, lines 28-44): acquires
`state.storage_manager.read().await` — a SHARED lock, although the operation
mutates the Workspace Store (the mutation is synchronized inside the SQLite
pool, which `StorageManager::save_workspace` reaches through `&self`) — calls
the manager's save, and returns `Ok(())`.  Each command's value is paired with
the state after it and the list of lock acquisitions it performed, transcribed
from its `.read().await` / `.write().await` calls; the backend I/O failures
that `map_err` translates are outside the model. -/
def save_workspace_cmd (st : AppState) (id name : String) (description : Option String)
    (windows_data : String) (now : Int) :
    Except String Unit × AppState × List LockAcq :=
  (Except.ok (),
   { st with storage_manager :=
       save_workspace st.storage_manager id name description windows_data now },
   [⟨Component.storage, LockKind.read⟩])

/-- load_workspace command (commands/storage.rs, lines 48-69): acquires a
shared lock on the storage manager, loads the row, and maps it to a
`WorkspaceInfo` whose `windows` field is
`serde_json::from_str(&w.windows_data).unwrap_or_default()` — the external
deserializer is the argument `deserialize`, and a parse failure defaults to
the empty list rather than an error. -/
def load_workspace_cmd (deserialize : String → Option (List String))
    (st : AppState) (id : String) :
    Except String (Option WorkspaceInfo) × AppState × List LockAcq :=
  (Except.ok ((load_workspace st.storage_manager id).map fun w =>
     { id := w.id, name := w.name, description := w.description,
       windows := (deserialize w.windows_data).getD [] }),
   st, [⟨Component.storage, LockKind.read⟩])

/-- minimize_to_tray command (commands/window.rs, lines 16-30): builds a
`TrayedWindow` (its fresh UUID and clock read are the arguments `freshId` and
`now`), acquires `state.window_manager.write().await` — an EXCLUSIVE lock —
inserts it, and returns the generated id. -/
def minimize_to_tray_cmd (st : AppState) (title app_name freshId : String) (now : Int) :
    Except String String × AppState × List LockAcq :=
  let window : TrayedWindow :=
    { id := freshId, title := title, app_name := app_name, process_id := none,
      workspace := none, preview_data := none, created_at := now, metadata := [] }
  (Except.ok freshId,
   { st with window_manager := (st.window_manager.add_to_tray window).2 },
   [⟨Component.window, LockKind.write⟩])

/-- restore_from_tray command (commands/window.rs, lines 34-51): acquires an
exclusive lock on the window manager, removes the entry, and either returns
its summary or signals not-found as an error string. -/
def restore_from_tray_cmd (st : AppState) (id : String) :
    Except String WindowInfo × AppState × List LockAcq :=
  match st.window_manager.remove_from_tray id with
  | (some w, m) =>
    (Except.ok { id := w.id, title := w.title, app_name := w.app_name, workspace := w.workspace },
     { st with window_manager := m }, [⟨Component.window, LockKind.write⟩])
  | (none, m) =>
    (Except.error ("Window not found: " ++ id),
     { st with window_manager := m }, [⟨Component.window, LockKind.write⟩])

/-- list_windows command (commands/window.rs, lines 55-73): acquires a shared
lock on the window manager and maps the entries to summaries. -/
def list_windows_cmd (st : AppState) :
    Except String (List WindowInfo) × AppState × List LockAcq :=
  (Except.ok (st.window_manager.list_trayed_windows.map fun w =>
     { id := w.id, title := w.title, app_name := w.app_name, workspace := w.workspace }),
   st, [⟨Component.window, LockKind.read⟩])

/-- get_window_preview command (commands/window.rs, lines 77-89): acquires a
shared lock on the window manager and returns the entry's preview bytes, or
signals not-found. -/
def get_window_preview_cmd (st : AppState) (id : String) :
    Except String (Option (List Nat)) × AppState × List LockAcq :=
  match st.window_manager.get_trayed_window id with
  | some w => (Except.ok w.preview_data, st, [⟨Component.window, LockKind.read⟩])
  | none => (Except.error ("Window not found: " ++ id), st, [⟨Component.window, LockKind.read⟩])

/-- C3 as claimed fails on `save_workspace_cmd`: at a concrete input the
command mutates the Workspace Store (the state's store changes), yet its only
lock acquisition is a SHARED read lock on the storage component, not the
exclusive write lock the claim requires for mutating operations. -/
theorem C3_counterexample :
    (save_workspace_cmd ⟨[], WindowManager.new⟩ "w1" "Dev" none "[]" 0).2.1.storage_manager ≠
      ([] : Store) ∧
    (save_workspace_cmd ⟨[], WindowManager.new⟩ "w1" "Dev" none "[]" 0).2.2 =
      [⟨Component.storage, LockKind.read⟩] ∧
    LockKind.read ≠ LockKind.write := by
  refine ⟨?_, rfl, by decide⟩
  intro h
  simp [save_workspace_cmd, save_workspace] at h

/-- C3 amended: every command acquires exactly one lock, on exactly the one
component it touches; the two Registry-mutating commands (minimize-to-tray
and restore-from-tray) take it exclusive, while save-workspace — although it
mutates the Store — takes only a shared read lock (the write is synchronized
inside the SQLite pool), and every read-only command takes a shared read
lock. -/
theorem C3_lock_discipline (st : AppState) (id name title app freshId : String)
    (d : Option String) (wd : String) (t : Int)
    (deserialize : String → Option (List String)) :
    (save_workspace_cmd st id name d wd t).2.2 = [⟨Component.storage, LockKind.read⟩] ∧
    (load_workspace_cmd deserialize st id).2.2 = [⟨Component.storage, LockKind.read⟩] ∧
    (minimize_to_tray_cmd st title app freshId t).2.2 = [⟨Component.window, LockKind.write⟩] ∧
    (restore_from_tray_cmd st id).2.2 = [⟨Component.window, LockKind.write⟩] ∧
    (list_windows_cmd st).2.2 = [⟨Component.window, LockKind.read⟩] ∧
    (get_window_preview_cmd st id).2.2 = [⟨Component.window, LockKind.read⟩] := by
  refine ⟨rfl, rfl, rfl, ?_, rfl, ?_⟩
  · unfold restore_from_tray_cmd
    cases st.window_manager.remove_from_tray id with
    | mk o m => cases o <;> rfl
  · unfold get_window_preview_cmd
    cases st.window_manager.get_trayed_window id <;> rfl

/-- C4: whenever a row is stored under the requested id, the load-workspace
command succeeds with a summary whose `windows` field is the deserialization
of the stored `windows_data`, defaulted to the empty list; in particular when
deserialization fails the command still returns a success value carrying an
empty window list, never an Encoding error.  Stated for every deserializer,
hence in particular for serde_json's list-of-strings parsing. -/
theorem C4_load_deserialize_default (deserialize : String → Option (List String))
    (st : AppState) (id : String) (w : WorkspaceData)
    (h : load_workspace st.storage_manager id = some w) :
    (load_workspace_cmd deserialize st id).1 =
      Except.ok (some { id := w.id, name := w.name, description := w.description,
                        windows := (deserialize w.windows_data).getD [] }) ∧
    (deserialize w.windows_data = none →
      (load_workspace_cmd deserialize st id).1 =
        Except.ok (some { id := w.id, name := w.name, description := w.description,
                          windows := [] })) := by
  constructor
  · unfold load_workspace_cmd
    rw [h]
    rfl
  · intro hn
    unfold load_workspace_cmd
    rw [h]
    simp [hn]

/-- Drops leading JSON whitespace. -/
def skipWs : List Char → List Char
  | [] => []
  | c :: cs => if c = ' ' || c = '\t' || c = '\n' || c = '\r' then skipWs cs else c :: cs

/-- Reads the body of a JSON string literal after its opening quote, up to the
closing quote, returning the content and the remaining input. -/
def parseStrBody : List Char → Option (List Char × List Char)
  | [] => none
  | c :: cs =>
    if c = '"' then some ([], cs)
    else if c = '\\' then
      match cs with
      | [] => none
      | e :: cs2 =>
        match parseStrBody cs2 with
        | some (s, rest) =>
          some ((if e = 'n' then '\n' else if e = 't' then '\t' else e) :: s, rest)
        | none => none
    else
      match parseStrBody cs with
      | some (s, rest) => some (c :: s, rest)
      | none => none

/-- Reads the comma-separated string elements of a non-empty JSON array, up to
and including the closing bracket; the fuel bounds the element count. -/
def parseElems : Nat → List Char → Option (List String × List Char)
  | 0, _ => none
  | Nat.succ fuel, input =>
    match skipWs input with
    | '"' :: cs =>
      match parseStrBody cs with
      | some (s, rest) =>
        match skipWs rest with
        | ',' :: rest2 =>
          match parseElems fuel rest2 with
          | some (ss, rest3) => some (String.mk s :: ss, rest3)
          | none => none
        | ']' :: rest2 => some ([String.mk s], rest2)
        | _ => none
      | none => none
    | _ => none

/-- Modelled from the spec: the deserialization of `windows_data` into a list
of window identifier strings that `serde_json::from_str::<Vec<String>>`
performs in the load-workspace command — serde_json is an external crate, not
part of this repository.  Accepts exactly a JSON array of string literals
(escape handling simplified to the common cases) and returns the absent value
on any other input. -/
def serde_json_from_str (s : String) : Option (List String) :=
  match skipWs s.data with
  | '[' :: cs =>
    match skipWs cs with
    | ']' :: rest => if (skipWs rest).isEmpty then some [] else none
    | _ =>
      match parseElems (s.length + 1) cs with
      | some (ss, rest) => if (skipWs rest).isEmpty then some ss else none
      | none => none
  | _ => none

/-- Witness for C4 with the serde_json model as deserializer, on a store whose
row "w1" holds the unparsable payload "not json": the parse fails and the
load-workspace command still succeeds, with an empty window list. -/
theorem C4_load_deserialize_default_witness :
    (load_workspace_cmd serde_json_from_str
        ⟨save_workspace [] "w1" "Dev" none "not json" 0, WindowManager.new⟩ "w1").1 =
      Except.ok (some { id := "w1", name := "Dev", description := none, windows := [] }) := by
  have h := C4_load_deserialize_default serde_json_from_str
    ⟨save_workspace [] "w1" "Dev" none "not json" 0, WindowManager.new⟩ "w1"
    { id := "w1", name := "Dev", description := none, windows_data := "not json",
      created_at := 0, updated_at := 0 }
    (by decide)
  exact h.2 (by decide)

end TrayMe
